import Mathlib

/-!
Shallow embedding of the PA02 TCP transfer benchmark
(MT25091_Common.h, MT25091_Part_A1_Client.c, MT25091_Part_A1_Server.c,
MT25091_Part_A2_Client.c, MT25091_Part_A3_Server.c).

Bytes are modelled as `Nat` ('A' = 65), C `int`/`ssize_t` values as `Int`,
the C `double` statistics as `ℚ`.  Socket and kernel behaviour
(return values of recv/send/sendmsg and of the MSG_ERRQUEUE poll) is
supplied by per-iteration oracles, so every loop of the source becomes a
function of its oracle trace.
-/

namespace MT25091

/-- NUM_STRING_FIELDS from MT25091_Common.h: the message has 8 fields. -/
def NUM_STRING_FIELDS : Nat := 8

/-- per-field size computed identically by allocate_message,
    serialize_message (MT25091_Common.h) and by the A2/A3 handlers:
    `field_size / NUM_STRING_FIELDS`, bumped to 1 when the quotient is 0. -/
def per_field_size (field_size : Nat) : Nat :=
  let p := field_size / NUM_STRING_FIELDS
  if p = 0 then 1 else p

/-- allocate_message (MT25091_Common.h, lines 83-104): 8 heap fields,
    field i memset-filled with the byte 'A' + i, each of
    per_field_size bytes.  The model is the list of the 8 field
    contents. -/
def allocate_message (field_size : Nat) : List (List Nat) :=
  (List.range NUM_STRING_FIELDS).map
    (fun i => List.replicate (per_field_size field_size) (65 + i))

/-- the copying loop of serialize_message: the write pointer walks the
    contiguous buffer, appending per bytes of each field in order. -/
def serialize_fields (per : Nat) : List (List Nat) → List Nat
  | [] => []
  | f :: fs => f.take per ++ serialize_fields per fs

/-- serialize_message (MT25091_Common.h, lines 118-132): memcpy
    per_field_size bytes of each of the 8 fields, in order, into one
    contiguous buffer of per_field_size * NUM_STRING_FIELDS bytes. -/
def serialize_message (msg : List (List Nat)) (field_size : Nat) : List Nat :=
  serialize_fields (per_field_size field_size) msg

/-- iovec array the A2 client builds (MT25091_Part_A2_Client.c, lines
    51-60): NUM_STRING_FIELDS descriptors, descriptor i covering
    per bytes starting at msg->field[i]. -/
def sg_iov (msg : List (List Nat)) (per : Nat) : List (List Nat) :=
  (List.range NUM_STRING_FIELDS).map (fun i => (msg.getD i []).take per)

/-- wire bytes of one sendmsg over sg_iov: the descriptors' contents
    concatenated in order. -/
def sg_wire (msg : List (List Nat)) (per : Nat) : List Nat :=
  (sg_iov msg per).flatten

/-! ### Helper lemmas about the message model -/

/-- per_field_size is never zero. -/
lemma per_field_size_pos (S : Nat) : 0 < per_field_size S := by
  show 0 < if S / NUM_STRING_FIELDS = 0 then 1 else S / NUM_STRING_FIELDS
  by_cases h : S / NUM_STRING_FIELDS = 0
  · simp [h]
  · simp [h, Nat.pos_of_ne_zero h]

/-- per_field_size written as the spec writes it. -/
lemma per_field_size_eq_max (S : Nat) :
    per_field_size S = max 1 (S / NUM_STRING_FIELDS) := by
  show (if S / NUM_STRING_FIELDS = 0 then 1 else S / NUM_STRING_FIELDS)
      = max 1 (S / NUM_STRING_FIELDS)
  by_cases h : S / NUM_STRING_FIELDS = 0
  · simp [h]
  · simp [h, Nat.max_eq_right (Nat.one_le_iff_ne_zero.mpr h)]

/-- reading a field of an allocated message: field i is the byte
    'A' + i repeated per_field_size times. -/
lemma allocate_message_getD (S i : Nat) (h : i < NUM_STRING_FIELDS) :
    (allocate_message S).getD i [] = List.replicate (per_field_size S) (65 + i) := by
  have h8 : i < 8 := h
  interval_cases i <;> rfl

/-- serialize_fields is the flattening of the per-truncated fields. -/
lemma serialize_fields_eq_flatten (per : Nat) (l : List (List Nat)) :
    serialize_fields per l = (l.map (fun f => f.take per)).flatten := by
  induction l with
  | nil => rfl
  | cons f fs ih => simp [serialize_fields, ih]

/-- flattening k blocks of per copies each gives the index formula
    j ↦ f (j / per). -/
lemma flatten_range_replicate (per : Nat) (f : Nat → Nat) :
    ∀ k : Nat,
      ((List.range k).map (fun i => List.replicate per (f i))).flatten
        = (List.range (k * per)).map (fun j => f (j / per)) := by
  intro k
  induction k with
  | zero => simp
  | succ n ih =>
    rw [List.range_succ, List.map_append, List.flatten_append, ih]
    rw [Nat.succ_mul, List.range_add, List.map_append, List.map_map]
    simp only [List.map_cons, List.map_nil, List.flatten_cons, List.flatten_nil,
      List.append_nil]
    congr 1
    rcases Nat.eq_zero_or_pos per with h0 | hpos
    · subst h0; simp
    · have : ∀ j ∈ List.range per,
          ((fun j => f (j / per)) ∘ (fun x => n * per + x)) j
            = Function.const Nat (f n) j := by
        intro j hj
        have hj' : j < per := List.mem_range.mp hj
        have : (n * per + j) / per = n + j / per := by
          rw [Nat.add_comm (n * per) j, Nat.mul_comm n per,
            Nat.add_mul_div_left j n hpos, Nat.add_comm]
        simp [Function.const, this, Nat.div_eq_of_lt hj']
      rw [List.map_congr_left this, List.map_const, List.length_range]

/-- the serialized buffer, byte by byte: byte j is 'A' + (j / per). -/
lemma serialize_allocate_eq (S : Nat) :
    serialize_message (allocate_message S) S
      = (List.range (per_field_size S * NUM_STRING_FIELDS)).map
          (fun j => 65 + j / per_field_size S) := by
  unfold serialize_message allocate_message
  rw [serialize_fields_eq_flatten, List.map_map]
  have heq : ∀ i ∈ List.range NUM_STRING_FIELDS,
      ((fun f => f.take (per_field_size S)) ∘
        (fun i => List.replicate (per_field_size S) (65 + i))) i
        = (fun i => List.replicate (per_field_size S) (65 + i)) i := by
    intro i _
    simp [List.take_replicate]
  rw [List.map_congr_left heq,
    flatten_range_replicate (per_field_size S) (fun i => 65 + i) NUM_STRING_FIELDS,
    Nat.mul_comm NUM_STRING_FIELDS (per_field_size S)]

/-- length of the serialized buffer: per_field_size * 8 bytes. -/
lemma serialize_allocate_length (S : Nat) :
    (serialize_message (allocate_message S) S).length
      = per_field_size S * NUM_STRING_FIELDS := by
  rw [serialize_allocate_eq]
  simp

/-!
### Zero-copy session model (MT25091_Part_A3_Server.c, handle_client)

handle_zerocopy_completion polls the socket error queue once and
returns 1 (a completion notification), 0 (nothing available) or -1
(polling error).  One `Poll` value is the outcome of one such call.
handle_client keeps `pending_completions : int` against the constant
watermark `max_pending = 8`.  Each iteration of its main loop:
opportunistically drains available completions, does one recv, waits
while `pending_completions >= max_pending` (breaking out on a polling
error), then one sendmsg(MSG_ZEROCOPY); on ENOBUFS it polls once
(return value ignored) and continues the loop; on success it
increments `pending_completions`.  After the loop a final
non-blocking drain runs before the buffers are freed.
-/

/-- outcome of one handle_zerocopy_completion call: return 1, 0 or -1. -/
inductive Poll where
  | done
  | noneAvail
  | err
deriving DecidableEq, Repr

/-- outcome of one sendmsg(MSG_ZEROCOPY) call: positive return,
    ENOBUFS, or any other failure (return <= 0, not ENOBUFS). -/
inductive SendRes where
  | ok
  | enobufs
  | fatal
deriving DecidableEq, Repr

/-- counters of one zero-copy session: pending_completions (a C int)
    and the message counters. -/
structure ZCState where
  pending : Int
  messagesReceived : Nat
  messagesSent : Nat
deriving DecidableEq, Repr

/-- kernel/peer behaviour during one iteration of the main loop:
    poll outcomes for the opportunistic drain, whether recv returned
    positive, poll outcomes for the pre-send wait, the sendmsg
    outcome, and the outcome of the single (ignored) poll made on
    ENOBUFS. -/
structure IterOracle where
  topPolls : List Poll
  recvOk : Bool
  waitPolls : List Poll
  sendRes : SendRes
  enobufsPoll : Poll
deriving DecidableEq, Repr

/-- the non-blocking drain loop, used both at the top of each
    iteration and at teardown:
    `while (pending > 0) { ret = poll(); if (ret > 0) pending--; else break; }`.
    An exhausted oracle means no further notification is ready. -/
def topDrain : Int → List Poll → Int
  | p, [] => p
  | p, r :: rs =>
    if p > 0 then
      match r with
      | Poll.done => topDrain (p - 1) rs
      | _ => p
    else p

/-- the pre-send wait:
    `while (pending >= max_pending) { ret = poll(); if (ret > 0) pending--;
     else if (ret < 0) break; }`.
    `some p` is the pending count when the loop exits; `none` means the
    oracle gave no way for the loop to terminate. -/
def waitLoop (wm : Int) : Int → List Poll → Option Int
  | p, [] => if p < wm then some p else none
  | p, r :: rs =>
    if p < wm then some p
    else
      match r with
      | Poll.done => waitLoop wm (p - 1) rs
      | Poll.err => some p
      | Poll.noneAvail => waitLoop wm p rs

/-- whether the pre-send wait exits through its `ret < 0` break,
    leaving pending at or above the watermark. -/
def waitBrokeOnErr (wm : Int) : Int → List Poll → Bool
  | _, [] => false
  | p, r :: rs =>
    if p < wm then false
    else
      match r with
      | Poll.done => waitBrokeOnErr wm (p - 1) rs
      | Poll.err => true
      | Poll.noneAvail => waitBrokeOnErr wm p rs

/-- how one iteration of the main loop ends: the wait never
    terminated, the loop broke (recv failure or fatal send failure),
    or the loop continues with the updated counters. -/
inductive IterResult where
  | diverged
  | exitLoop (st : ZCState)
  | next (st : ZCState)
deriving DecidableEq, Repr

/-- one iteration of the main communication loop of handle_client
    (MT25091_Part_A3_Server.c, lines 153-208). -/
def sessionIter (wm : Int) (st : ZCState) (o : IterOracle) : IterResult :=
  let stTop : ZCState := { st with pending := topDrain st.pending o.topPolls }
  if o.recvOk then
    let stRecv : ZCState :=
      { stTop with messagesReceived := stTop.messagesReceived + 1 }
    match waitLoop wm stRecv.pending o.waitPolls with
    | none => IterResult.diverged
    | some p2 =>
      let stWait : ZCState := { stRecv with pending := p2 }
      match o.sendRes with
      | SendRes.ok =>
        IterResult.next
          { stWait with
              pending := p2 + 1, messagesSent := stWait.messagesSent + 1 }
      | SendRes.enobufs => IterResult.next stWait
      | SendRes.fatal => IterResult.exitLoop stWait
  else IterResult.exitLoop stTop

/-- the main loop over a finite oracle trace; an exhausted trace means
    the running flag was observed clear, so the loop exits there. -/
def sessionRun (wm : Int) : ZCState → List IterOracle → IterResult
  | st, [] => IterResult.next st
  | st, o :: os =>
    match sessionIter wm st o with
    | IterResult.next st' => sessionRun wm st' os
    | r => r

/-- pending_completions at the moment handle_client frees the message
    buffers: the main loop runs, then the teardown drain
    (MT25091_Part_A3_Server.c, lines 210-218), then cleanup frees the
    buffers.  `none` when the main loop has no terminating execution
    for the trace. -/
def pendingAtFree (wm : Int) (st : ZCState) (iters : List IterOracle)
    (teardownPolls : List Poll) : Option Int :=
  match sessionRun wm st iters with
  | IterResult.diverged => none
  | IterResult.exitLoop st' => some (topDrain st'.pending teardownPolls)
  | IterResult.next st' => some (topDrain st'.pending teardownPolls)

/-- an iteration in which every call succeeds: recv positive, no
    waiting needed, sendmsg accepted. -/
def okIter : IterOracle :=
  { topPolls := [], recvOk := true, waitPolls := [],
    sendRes := SendRes.ok, enobufsPoll := Poll.noneAvail }

/-- an iteration whose sendmsg is rejected with ENOBUFS; the single
    poll made on that path reaps a completion, whose result the code
    ignores. -/
def enobufsIter : IterOracle :=
  { topPolls := [], recvOk := true, waitPolls := [],
    sendRes := SendRes.enobufs, enobufsPoll := Poll.done }

/-- the initial counters of a fresh session. -/
def zcInit : ZCState := { pending := 0, messagesReceived := 0, messagesSent := 0 }

/-!
### Helper lemmas about the zero-copy model
-/

/-- the non-blocking drain never increases pending. -/
lemma topDrain_le (polls : List Poll) : ∀ p : Int, topDrain p polls ≤ p := by
  induction polls with
  | nil => intro p; simp [topDrain]
  | cons r rs ih =>
    intro p
    simp only [topDrain]
    by_cases hp : p > 0
    · cases r
      · simp only [hp, if_pos]
        exact le_trans (ih (p - 1)) (by omega)
      · simp [hp]
      · simp [hp]
    · simp [hp]

/-- the non-blocking drain never makes pending negative. -/
lemma topDrain_nonneg (polls : List Poll) :
    ∀ p : Int, 0 ≤ p → 0 ≤ topDrain p polls := by
  induction polls with
  | nil => intro p hp; simpa [topDrain] using hp
  | cons r rs ih =>
    intro p hp
    simp only [topDrain]
    by_cases hpos : p > 0
    · cases r
      · simp only [hpos, if_pos]
        exact ih (p - 1) (by omega)
      · simp [hpos, hp]
      · simp [hpos, hp]
    · simp [hpos, hp]

/-- the pre-send wait never increases pending. -/
lemma waitLoop_le (wm : Int) (polls : List Poll) :
    ∀ p q : Int, waitLoop wm p polls = some q → q ≤ p := by
  induction polls with
  | nil =>
    intro p q h
    simp only [waitLoop] at h
    split at h
    · simp at h; omega
    · simp at h
  | cons r rs ih =>
    intro p q h
    simp only [waitLoop] at h
    split at h
    · simp at h; omega
    · cases r
      · exact le_trans (ih (p - 1) q h) (by omega)
      · exact le_trans (ih p q h) (le_refl p)
      · simp at h; omega

/-- with a positive watermark the pre-send wait keeps pending
    nonnegative. -/
lemma waitLoop_nonneg (wm : Int) (hwm : 0 < wm) (polls : List Poll) :
    ∀ p q : Int, 0 ≤ p → waitLoop wm p polls = some q → 0 ≤ q := by
  induction polls with
  | nil =>
    intro p q hp h
    simp only [waitLoop] at h
    split at h
    · simp at h; omega
    · exact absurd h (by simp)
  | cons r rs ih =>
    intro p q hp h
    simp only [waitLoop] at h
    split at h
    · simp at h; omega
    · rename_i hge
      cases r
      · exact ih (p - 1) q (by omega) h
      · exact ih p q hp h
      · simp at h; omega

/-- when the pre-send wait does not break on a polling error, it exits
    only because pending dropped below the watermark. -/
lemma waitLoop_lt_of_no_err (wm : Int) (polls : List Poll) :
    ∀ p q : Int, waitLoop wm p polls = some q →
      waitBrokeOnErr wm p polls = false → q < wm := by
  induction polls with
  | nil =>
    intro p q h _
    simp only [waitLoop] at h
    split at h
    · simp at h; omega
    · exact absurd h (by simp)
  | cons r rs ih =>
    intro p q h herr
    simp only [waitLoop] at h
    simp only [waitBrokeOnErr] at herr
    split at h
    · rename_i hlt
      simp only [if_pos hlt] at herr
      simp at h; omega
    · rename_i hge
      simp only [if_neg hge] at herr
      cases r
      · exact ih (p - 1) q h herr
      · exact ih p q h herr
      · simp at herr

/-- draining with exactly as many ready completions as are pending
    reaches zero. -/
lemma topDrain_replicate_done (n : Nat) :
    topDrain (n : Int) (List.replicate n Poll.done) = 0 := by
  induction n with
  | zero => rfl
  | succ k ih =>
    rw [List.replicate_succ]
    show topDrain ((k + 1 : Nat) : Int) (Poll.done :: List.replicate k Poll.done) = 0
    simp only [topDrain]
    rw [if_pos (by push_cast; omega)]
    have h2 : ((k + 1 : Nat) : Int) - 1 = (k : Int) := by push_cast; ring
    rw [h2]
    exact ih

/-- a drain facing a poll that reports nothing (or a polling error)
    stops at once. -/
lemma topDrain_stops (p : Int) (r : Poll) (rs : List Poll)
    (hr : r ≠ Poll.done) : topDrain p (r :: rs) = p := by
  simp only [topDrain]
  by_cases hp : p > 0
  · cases r
    · exact absurd rfl hr
    · simp [hp]
    · simp [hp]
  · simp [hp]

/-!
### Full-copy client model (MT25091_Part_A1_Client.c, client_thread)

Each iteration of the client loop does one send() of the whole
serialized buffer (no retry on a short write), then loops on recv()
until buffer_size bytes have arrived, recv fails, or the running flag
clears; on a full or flag-interrupted receive it adds the measured
round-trip latency.  Identical accounting appears in the A2 client.
-/

/-- the mutable counters of a ClientContext (MT25091_Common.h,
    lines 46-59). -/
structure CStats where
  bytes_sent : Nat
  bytes_received : Nat
  messages_sent : Nat
  messages_received : Nat
  total_latency_us : ℚ
deriving DecidableEq, Repr

/-- a fresh ClientContext, memset to zero. -/
def initCStats : CStats :=
  { bytes_sent := 0, bytes_received := 0, messages_sent := 0,
    messages_received := 0, total_latency_us := 0 }

/-- transport behaviour during one iteration: the return of the single
    send() call, the returns of the successive recv() calls (list
    exhaustion means the running flag was observed clear), and the
    round-trip latency measured for the iteration. -/
structure ClientOracle where
  sendRet : Int
  recvRets : List Int
  latency : ℚ
deriving DecidableEq, Repr

/-- how the inner receive loop ends: buffer_size bytes accumulated,
    the running flag cleared with a partial total, or a recv failure
    (return <= 0) which jumps to cleanup. -/
inductive RecvOutcome where
  | complete (total : Nat)
  | stopped (total : Nat)
  | failed
deriving DecidableEq, Repr

/-- the inner receive loop:
    `while (total_recv < buffer_size && running) { recv(...); }`
    (MT25091_Part_A1_Client.c, lines 86-97). -/
def recvLoop (bufferSize : Nat) : Nat → List Int → RecvOutcome
  | t, [] => if bufferSize ≤ t then RecvOutcome.complete t else RecvOutcome.stopped t
  | t, r :: rs =>
    if bufferSize ≤ t then RecvOutcome.complete t
    else if r ≤ 0 then RecvOutcome.failed
    else recvLoop bufferSize (t + r.toNat) rs

/-- one iteration of the client loop (MT25091_Part_A1_Client.c, lines
    65-106): the Bool is whether the loop may run another iteration. -/
def clientIter (bufferSize : Nat) (st : CStats) (o : ClientOracle) :
    CStats × Bool :=
  if o.sendRet ≤ 0 then (st, false)
  else
    let st1 : CStats :=
      { st with
          bytes_sent := st.bytes_sent + o.sendRet.toNat,
          messages_sent := st.messages_sent + 1 }
    match recvLoop bufferSize 0 o.recvRets with
    | RecvOutcome.failed => (st1, false)
    | RecvOutcome.complete t =>
      ({ st1 with
          bytes_received := st1.bytes_received + t,
          messages_received := st1.messages_received + 1,
          total_latency_us := st1.total_latency_us + o.latency }, true)
    | RecvOutcome.stopped t =>
      ({ st1 with
          bytes_received := st1.bytes_received + t,
          messages_received := st1.messages_received + 1,
          total_latency_us := st1.total_latency_us + o.latency }, false)

/-- the client loop over a finite oracle trace; trace exhaustion is
    the configured duration elapsing. -/
def clientRun (bufferSize : Nat) : CStats → List ClientOracle → CStats
  | st, [] => st
  | st, o :: os =>
    match clientIter bufferSize st o with
    | (st', true) => clientRun bufferSize st' os
    | (st', false) => st'

/-!
### Full-copy server model (MT25091_Part_A1_Server.c, handle_client)

The echo loop does one recv() into recv_buffer of up to buffer_size
bytes and answers every successful receive with
`send(socket, send_buffer, buffer_size, 0)` - the pre-serialized
buffer with its full length, whatever recv returned.
-/

/-- the statistics counters the server session keeps. -/
structure SStats where
  bytes_received : Nat
  bytes_sent : Nat
  messages_received : Nat
  messages_sent : Nat
deriving DecidableEq, Repr

/-- a fresh server-side ClientContext, memset to zero. -/
def initSStats : SStats :=
  { bytes_received := 0, bytes_sent := 0, messages_received := 0,
    messages_sent := 0 }

/-- the buffer and length arguments the server's echo send() call
    passes (MT25091_Part_A1_Server.c, line 88): always the whole
    serialized send_buffer with its full length, independent of how
    many bytes the preceding recv obtained. -/
def server_send_args (S _bytesRecv : Nat) : List Nat × Nat :=
  (serialize_message (allocate_message S) S,
    per_field_size S * NUM_STRING_FIELDS)

/-- one iteration of the server echo loop (MT25091_Part_A1_Server.c,
    lines 69-99), driven by the recv() and send() returns; the Bool is
    whether the loop continues. -/
def serverIter (st : SStats) (recvRet sendRet : Int) : SStats × Bool :=
  if recvRet ≤ 0 then (st, false)
  else
    let st1 : SStats :=
      { st with
          bytes_received := st.bytes_received + recvRet.toNat,
          messages_received := st.messages_received + 1 }
    if sendRet ≤ 0 then (st1, false)
    else
      ({ st1 with
          bytes_sent := st1.bytes_sent + sendRet.toNat,
          messages_sent := st1.messages_sent + 1 }, true)

/-!
### Admission control (MT25091_Part_A1_Server.c, lines 196-233 and
lines 117-119; identically MT25091_Part_A3_Server.c, lines 303-337)

num_active_clients is only touched under clients_mutex: the accept
path checks it against max_threads and either rejects the connection
(close, no change) or increments it; the context-allocation and
pthread_create failure paths decrement it again; a finishing session
decrements it.  The mutex serializes these critical sections, so the
counter's history is a sequence of these atomic events.
-/

/-- one mutex-protected event touching num_active_clients. -/
inductive AdmEvent where
  | accept
  | ctxAllocFail
  | spawnFail
  | sessionExit
deriving DecidableEq, Repr

/-- effect of one event on the counter: an accepted connection at
    capacity is rejected and leaves the counter unchanged, otherwise
    the counter is incremented; every failure or exit path decrements
    it. -/
def admStep (maxThreads : Int) (c : Int) : AdmEvent → Int
  | AdmEvent.accept => if maxThreads ≤ c then c else c + 1
  | AdmEvent.ctxAllocFail => c - 1
  | AdmEvent.spawnFail => c - 1
  | AdmEvent.sessionExit => c - 1

/-- num_active_clients after a history of events, starting from 0. -/
def admCount (maxThreads : Int) (events : List AdmEvent) : Int :=
  events.foldl (admStep maxThreads) 0

/-!
### Summary arithmetic (MT25091_Part_A1_Client.c, main, lines 212-241)

main joins the session threads, sums bytes_sent, bytes_received,
messages_sent (as `total_messages`) and total_latency_us over the
contexts, and prints
`throughput = (total_sent + total_recv) * 8 / (duration * 1e9)` Gbps
and `avg latency = total_latency / total_messages`.  The C doubles
are modelled as exact rationals.
-/

/-- the throughput formula of the summary block. -/
def throughput_gbps (totalBytesSent totalBytesRecv duration : Nat) : ℚ :=
  ((totalBytesSent : ℚ) + (totalBytesRecv : ℚ)) * 8
    / ((duration : ℚ) * 1000000000)

/-- the average-latency formula of the summary block; the denominator
    is the sum of messages_sent. -/
def avg_latency_us (totalLatency : ℚ) (totalMessages : Nat) : ℚ :=
  totalLatency / (totalMessages : ℚ)

/-- the joined totals and the two printed figures. -/
def summary (sessions : List CStats) (duration : Nat) : ℚ × ℚ :=
  (throughput_gbps ((sessions.map (fun s => s.bytes_sent)).sum)
      ((sessions.map (fun s => s.bytes_received)).sum) duration,
    avg_latency_us ((sessions.map (fun s => s.total_latency_us)).sum)
      ((sessions.map (fun s => s.messages_sent)).sum))

/-!
### Helper lemmas about the client and admission models
-/

/-- the inner receive loop reports completion only once buffer_size
    bytes have accumulated. -/
lemma recvLoop_complete_le (bufferSize : Nat) (rs : List Int) :
    ∀ t u, recvLoop bufferSize t rs = RecvOutcome.complete u →
      bufferSize ≤ u := by
  induction rs with
  | nil =>
    intro t u h
    simp only [recvLoop] at h
    split at h
    · rename_i hle
      simp only [RecvOutcome.complete.injEq] at h
      omega
    · simp at h
  | cons r rs ih =>
    intro t u h
    simp only [recvLoop] at h
    split at h
    · rename_i hle
      simp only [RecvOutcome.complete.injEq] at h
      omega
    · split at h
      · simp at h
      · exact ih (t + r.toNat) u h

/-- every admission event keeps the counter at or below max_threads. -/
lemma admCount_le (maxThreads : Int) (events : List AdmEvent) :
    ∀ c : Int, c ≤ maxThreads →
      events.foldl (admStep maxThreads) c ≤ maxThreads := by
  induction events with
  | nil => intro c hc; simpa using hc
  | cons e es ih =>
    intro c hc
    simp only [List.foldl_cons]
    apply ih
    cases e
    · show (if maxThreads ≤ c then c else c + 1) ≤ maxThreads
      split <;> omega
    · show c - 1 ≤ maxThreads
      omega
    · show c - 1 ≤ maxThreads
      omega
    · show c - 1 ≤ maxThreads
      omega

/-!
## Claim theorems
-/

/-- C1, counterexample: at requested size S = 1 the per-segment size is
    bumped to 1 and the message serializes to 8 bytes, so the claimed
    bound effective total ≤ S fails (the claim asserts it in
    particular for S = 1). -/
theorem C1_counterexample :
    per_field_size 1 = max 1 (1 / NUM_STRING_FIELDS) ∧
    (serialize_message (allocate_message 1) 1).length = 8 ∧
    ¬ (serialize_message (allocate_message 1) 1).length ≤ 1 := by
  decide

/-- C1 (amended): for every requested size S ≥ 8 the message is built
    of 8 segments of per_segment_size = max(1, S / 8) bytes each, the
    serialized total is per_segment_size × 8, and that total is ≤ S;
    this holds in particular for S ∈ {8, 1023, 1024, 1000000}.  (For
    1 ≤ S < 8 the quotient is bumped to 1 and the serialized total is
    8 > S.) -/
theorem C1_segment_invariant (S : Nat) (h : NUM_STRING_FIELDS ≤ S) :
    per_field_size S = max 1 (S / NUM_STRING_FIELDS) ∧
    (serialize_message (allocate_message S) S).length
      = per_field_size S * NUM_STRING_FIELDS ∧
    (serialize_message (allocate_message S) S).length ≤ S := by
  refine ⟨per_field_size_eq_max S, serialize_allocate_length S, ?_⟩
  rw [serialize_allocate_length]
  have hq : S / NUM_STRING_FIELDS ≠ 0 := by
    have h1 : 1 ≤ S / NUM_STRING_FIELDS :=
      (Nat.one_le_div_iff (by decide)).mpr h
    omega
  have hper : per_field_size S = S / NUM_STRING_FIELDS := by
    show (if S / NUM_STRING_FIELDS = 0 then 1 else S / NUM_STRING_FIELDS) = _
    simp [hq]
  rw [hper]
  exact Nat.div_mul_le_self S NUM_STRING_FIELDS

/-- C1, witness: the amended invariant instantiated at S = 1024. -/
theorem C1_segment_invariant_witness :
    per_field_size 1024 = max 1 (1024 / NUM_STRING_FIELDS) ∧
    (serialize_message (allocate_message 1024) 1024).length
      = per_field_size 1024 * NUM_STRING_FIELDS ∧
    (serialize_message (allocate_message 1024) 1024).length ≤ 1024 :=
  C1_segment_invariant 1024 (by decide)

/-- C9: for every message size S the wire bytes of the scatter-gather
    strategy (the 8 iovec segment buffers concatenated in order) equal
    the wire bytes of the full-copy strategy (the contiguous buffer
    serialize_message builds from the same message). -/
theorem C9_wire_equivalence (S : Nat) :
    sg_wire (allocate_message S) (per_field_size S)
      = serialize_message (allocate_message S) S := by
  unfold sg_wire sg_iov serialize_message
  rw [serialize_fields_eq_flatten]
  congr 1

/-- C10: the payload is a deterministic function of S alone: segment i
    (0 ≤ i < 8) of an allocated message is filled entirely with the
    byte 'A' + i (= 65 + i), and byte j of the serialized buffer is
    'A' + (j / per_segment_size). -/
theorem C10_deterministic_payload (S : Nat) :
    (∀ i, i < NUM_STRING_FIELDS →
      (allocate_message S).getD i []
        = List.replicate (per_field_size S) (65 + i)) ∧
    serialize_message (allocate_message S) S
      = (List.range (per_field_size S * NUM_STRING_FIELDS)).map
          (fun j => 65 + j / per_field_size S) :=
  ⟨fun i hi => allocate_message_getD S i hi, serialize_allocate_eq S⟩

/-- C2, counterexample: with the watermark max_pending = 8, a session
    that has 8 submissions outstanding, whose pre-send completion wait
    exits on a polling error, and whose next sendmsg succeeds, reaches
    pending_completions = 9 > 8 - reachable from a fresh session by 8
    clean exchanges followed by exactly that iteration. -/
theorem C2_counterexample :
    sessionRun 8 zcInit
        (List.replicate 8 okIter ++ [{ okIter with waitPolls := [Poll.err] }])
      = IterResult.next
          { pending := 9, messagesReceived := 9, messagesSent := 9 } ∧
    ¬ ((9 : Int) ≤ 8) := by
  decide

/-- C2 (amended): with a positive watermark, outstanding submissions
    stay nonnegative, each loop iteration from a state within the
    watermark ends at most one above it, and the iteration stays
    within the watermark whenever the pre-send wait did not exit on a
    polling error; an error exit of that wait followed by a successful
    sendmsg is exactly the case that exceeds the watermark. -/
theorem C2_outstanding_bound (wm : Int) (st st' : ZCState) (o : IterOracle)
    (hwm : 0 < wm) (hp0 : 0 ≤ st.pending) (hp : st.pending ≤ wm)
    (h : sessionIter wm st o = IterResult.next st') :
    0 ≤ st'.pending ∧ st'.pending ≤ wm + 1 ∧
    (waitBrokeOnErr wm (topDrain st.pending o.topPolls) o.waitPolls = false →
      st'.pending ≤ wm) := by
  obtain ⟨top, rok, wpolls, sres, epoll⟩ := o
  cases rok with
  | false => simp [sessionIter] at h
  | true =>
    simp only [sessionIter, if_true] at h
    have htople := topDrain_le top st.pending
    have htopnn := topDrain_nonneg top st.pending hp0
    cases hw : waitLoop wm (topDrain st.pending top) wpolls with
    | none => rw [hw] at h; simp at h
    | some p2 =>
      rw [hw] at h
      have hle : p2 ≤ topDrain st.pending top := waitLoop_le wm wpolls _ p2 hw
      have hnn : 0 ≤ p2 := waitLoop_nonneg wm hwm wpolls _ p2 htopnn hw
      cases sres with
      | ok =>
        simp only at h
        injection h with h
        subst h
        refine ⟨by simp; omega, by simp; omega, ?_⟩
        intro herr
        have hlt := waitLoop_lt_of_no_err wm wpolls _ p2 hw herr
        simp
        omega
      | enobufs =>
        simp only at h
        injection h with h
        subst h
        refine ⟨by simp; omega, by simp; omega, ?_⟩
        intro herr
        have hlt := waitLoop_lt_of_no_err wm wpolls _ p2 hw herr
        simp
        omega
      | fatal => simp at h

/-- C2, witness: the amended bound at watermark 8, three outstanding
    submissions and a clean iteration. -/
theorem C2_outstanding_bound_witness :
    0 ≤ (ZCState.mk 4 1 1).pending ∧ (ZCState.mk 4 1 1).pending ≤ 8 + 1 ∧
    (waitBrokeOnErr 8 (topDrain (ZCState.mk 3 0 0).pending okIter.topPolls)
        okIter.waitPolls = false →
      (ZCState.mk 4 1 1).pending ≤ 8) :=
  C2_outstanding_bound 8 (ZCState.mk 3 0 0) (ZCState.mk 4 1 1) okIter
    (by decide) (by decide) (by decide) (by decide)

/-- C3, counterexample: a session with one submission outstanding
    whose teardown poll reports that no completion is ready frees its
    buffers with that record still pending: the teardown drain is
    non-blocking (it breaks on the first poll that reports nothing,
    with no timeout-bounded wait). -/
theorem C3_counterexample :
    pendingAtFree 8 zcInit [okIter] [Poll.noneAvail] = some 1 ∧
    (1 : Int) ≠ 0 := by
  decide

/-- C3 (amended): at teardown the session drains only completions
    already available, without blocking: if a completion notification
    is ready for every outstanding record, all are drained (pending
    reaches 0) before the buffers are freed; but the first poll that
    reports nothing ready, or a polling error, stops the drain at
    once, and the buffers are then freed with the remaining records
    still pending. -/
theorem C3_teardown_drain (wm : Int) (st st' : ZCState)
    (iters : List IterOracle)
    (h : sessionRun wm st iters = IterResult.next st' ∨
         sessionRun wm st iters = IterResult.exitLoop st')
    (hp : 0 ≤ st'.pending) :
    pendingAtFree wm st iters (List.replicate st'.pending.toNat Poll.done)
        = some 0 ∧
    (0 < st'.pending → ∀ r rs, r ≠ Poll.done →
      pendingAtFree wm st iters (r :: rs) = some st'.pending) := by
  obtain ⟨n, hn⟩ := Int.eq_ofNat_of_zero_le hp
  constructor
  · unfold pendingAtFree
    rcases h with h | h <;> rw [h] <;>
      · show some (topDrain st'.pending
            (List.replicate st'.pending.toNat Poll.done)) = some 0
        rw [hn, Int.toNat_natCast, topDrain_replicate_done n]
  · intro _ r rs hr
    unfold pendingAtFree
    rcases h with h | h <;> rw [h] <;>
      · show some (topDrain st'.pending (r :: rs)) = some st'.pending
        rw [topDrain_stops st'.pending r rs hr]

/-- C3, witness: the amended statement for a session that completed
    one exchange and has one completion outstanding at teardown. -/
theorem C3_teardown_drain_witness :
    pendingAtFree 8 zcInit [okIter]
        (List.replicate (ZCState.mk 1 1 1).pending.toNat Poll.done)
        = some 0 ∧
    (0 < (ZCState.mk 1 1 1).pending → ∀ r rs, r ≠ Poll.done →
      pendingAtFree 8 zcInit [okIter] (r :: rs)
        = some (ZCState.mk 1 1 1).pending) :=
  C3_teardown_drain 8 zcInit (ZCState.mk 1 1 1) [okIter]
    (Or.inl (by decide)) (by decide)

/-- C4, counterexample: a clean exchange, then an exchange whose
    zero-copy submit is rejected with ENOBUFS, then another exchange:
    the session ends having received 3 requests but submitted only 2
    responses - after the rejection it goes back to recv and never
    retries the rejected submission, so that exchange's echo is lost
    (and this although the single post-rejection poll reaped a
    completion, which the code ignores). -/
theorem C4_counterexample :
    sessionRun 8 zcInit [okIter, enobufsIter, okIter]
      = IterResult.next
          { pending := 2, messagesReceived := 3, messagesSent := 2 } ∧
    (3 : Nat) ≠ 2 := by
  decide

/-- C4 (amended): when sendmsg is rejected with ENOBUFS the session
    polls the completion queue once, ignoring the result (pending is
    not decremented even if a completion was reaped), and continues
    the main loop without treating the rejection as a session failure;
    the iteration submits nothing (messagesSent unchanged) while
    having consumed one more request (messagesReceived incremented),
    so the rejected exchange is never retried. -/
theorem C4_enobufs_no_retry (wm : Int) (st st' : ZCState) (o : IterOracle)
    (hsend : o.sendRes = SendRes.enobufs)
    (h : sessionIter wm st o = IterResult.next st') :
    st'.messagesSent = st.messagesSent ∧
    st'.messagesReceived = st.messagesReceived + 1 ∧
    st'.pending ≤ st.pending := by
  obtain ⟨top, rok, wpolls, sres, epoll⟩ := o
  cases sres with
  | ok => simp at hsend
  | fatal => simp at hsend
  | enobufs =>
    cases rok with
    | false => simp [sessionIter] at h
    | true =>
      simp only [sessionIter, if_true] at h
      have htople := topDrain_le top st.pending
      cases hw : waitLoop wm (topDrain st.pending top) wpolls with
      | none => rw [hw] at h; simp at h
      | some p2 =>
        rw [hw] at h
        have hle : p2 ≤ topDrain st.pending top :=
          waitLoop_le wm wpolls _ p2 hw
        simp only at h
        injection h with h
        subst h
        refine ⟨by simp, by simp, by simp; omega⟩

/-- C4, witness: the amended statement for a fresh session whose first
    submit is rejected. -/
theorem C4_enobufs_no_retry_witness :
    (ZCState.mk 0 1 0).messagesSent = zcInit.messagesSent ∧
    (ZCState.mk 0 1 0).messagesReceived = zcInit.messagesReceived + 1 ∧
    (ZCState.mk 0 1 0).pending ≤ zcInit.pending :=
  C4_enobufs_no_retry 8 zcInit (ZCState.mk 0 1 0) enobufsIter rfl (by decide)

/-- C5, counterexample: a send() that accepts only 100 of the 1024
    requested bytes is not retried: the iteration counts one full
    message sent with bytes_sent = 100, so a successful submit does
    not account exactly B bytes. -/
theorem C5_counterexample :
    ((clientIter 1024 initCStats (ClientOracle.mk 100 [1024] 7)).1).bytes_sent
        = 100 ∧
    ((clientIter 1024 initCStats (ClientOracle.mk 100 [1024] 7)).1).messages_sent
        = 1 ∧
    (clientIter 1024 initCStats (ClientOracle.mk 100 [1024] 7)).2 = true ∧
    (100 : Nat) ≠ 1024 := by
  decide

/-- C5 (amended): the full-copy submit is a single send() call with no
    short-write loop: whenever the call returns n > 0 the iteration
    accounts exactly n bytes (which may be less than the buffer size)
    and one message sent; only the receive side loops, reporting
    completion only after at least buffer_size bytes arrived. -/
theorem C5_single_send_accounting (bufferSize : Nat) (st : CStats)
    (o : ClientOracle) (hsend : 0 < o.sendRet) :
    ((clientIter bufferSize st o).1).bytes_sent
        = st.bytes_sent + o.sendRet.toNat ∧
    ((clientIter bufferSize st o).1).messages_sent = st.messages_sent + 1 ∧
    (∀ t, recvLoop bufferSize 0 o.recvRets = RecvOutcome.complete t →
      bufferSize ≤ t) := by
  refine ⟨?_, ?_, fun t ht => recvLoop_complete_le bufferSize o.recvRets 0 t ht⟩
  all_goals
    unfold clientIter
    rw [if_neg (by omega)]
    cases hr : recvLoop bufferSize 0 o.recvRets <;> rfl

/-- C5, witness: the amended accounting at buffer size 1024 for a send
    that accepted 100 bytes. -/
theorem C5_single_send_witness :
    ((clientIter 1024 initCStats
        { sendRet := 100, recvRets := [1024], latency := 7 }).1).bytes_sent
      = initCStats.bytes_sent
          + (ClientOracle.mk 100 [1024] 7).sendRet.toNat ∧
    ((clientIter 1024 initCStats
        { sendRet := 100, recvRets := [1024], latency := 7 }).1).messages_sent
      = initCStats.messages_sent + 1 ∧
    (∀ t, recvLoop 1024 0 (ClientOracle.mk 100 [1024] 7).recvRets
        = RecvOutcome.complete t → 1024 ≤ t) :=
  C5_single_send_accounting 1024 initCStats
    (ClientOracle.mk 100 [1024] 7) (by decide)

/-- C6, counterexample: the server's receive obtains R = 1 byte of a
    request, yet the echo send() it issues passes the full serialized
    buffer with length 1024: the response transmitted is not R bytes
    long. -/
theorem C6_counterexample :
    serverIter initSStats 1 1024
      = ({ bytes_received := 1, bytes_sent := 1024, messages_received := 1,
            messages_sent := 1 }, true) ∧
    (server_send_args 1024 1).2 = 1024 ∧
    (1024 : Nat) ≠ 1 := by
  decide

/-- C6 (amended): the server answers every successful receive with a
    send of the whole pre-serialized buffer - both the buffer passed
    and the length requested are per_segment_size × 8 bytes,
    independent of how many bytes the receive obtained; the response
    length equals the received length only when the receive obtained
    the full buffer. -/
theorem C6_echo_fixed_length (S r : Nat) :
    (server_send_args S r).1.length = per_field_size S * NUM_STRING_FIELDS ∧
    (server_send_args S r).2 = per_field_size S * NUM_STRING_FIELDS ∧
    server_send_args S r = server_send_args S 0 ∧
    (r = per_field_size S * NUM_STRING_FIELDS →
      (server_send_args S r).2 = r) :=
  ⟨serialize_allocate_length S, rfl, rfl, fun h => h.symm⟩

/-- C7: the active-session counter, touched only inside the
    clients_mutex critical sections, never exceeds max_threads: an
    accepted connection at capacity is rejected with the counter
    unchanged, below capacity the counter is incremented, and every
    exit or failure path decrements it. -/
theorem C7_admission_control (maxThreads : Int) (events : List AdmEvent)
    (h : 0 ≤ maxThreads) :
    admCount maxThreads events ≤ maxThreads ∧
    (∀ c : Int, maxThreads ≤ c → admStep maxThreads c AdmEvent.accept = c) ∧
    (∀ c : Int, c < maxThreads →
      admStep maxThreads c AdmEvent.accept = c + 1) := by
  refine ⟨admCount_le maxThreads events 0 h, ?_, ?_⟩
  · intro c hc
    show (if maxThreads ≤ c then c else c + 1) = c
    rw [if_pos hc]
  · intro c hc
    show (if maxThreads ≤ c then c else c + 1) = c + 1
    rw [if_neg (by omega)]

/-- C7, witness: max_threads = 2 with five events: two admissions, one
    rejection at capacity, one session exit, one further admission. -/
theorem C7_admission_control_witness :
    admCount 2 [AdmEvent.accept, AdmEvent.accept, AdmEvent.accept,
        AdmEvent.sessionExit, AdmEvent.accept] ≤ 2 ∧
    (∀ c : Int, 2 ≤ c → admStep 2 c AdmEvent.accept = c) ∧
    (∀ c : Int, c < 2 → admStep 2 c AdmEvent.accept = c + 1) :=
  C7_admission_control 2
    [AdmEvent.accept, AdmEvent.accept, AdmEvent.accept,
      AdmEvent.sessionExit, AdmEvent.accept] (by decide)

/-- C8, counterexample: a session whose first exchange completes (echo
    fully received, latency 10 µs) and whose second send succeeds but
    whose echo receive then fails ends with messages_sent = 2 but only
    1 completed round-trip; the summary divides by messages_sent,
    printing 10/2 = 5 µs, not total latency per completed round-trip
    10/1 = 10 µs. -/
theorem C8_counterexample :
    ((clientRun 1024 initCStats
        [ClientOracle.mk 1024 [1024] 10,
          ClientOracle.mk 1024 [-1] 0]).messages_sent = 2) ∧
    ((clientRun 1024 initCStats
        [ClientOracle.mk 1024 [1024] 10,
          ClientOracle.mk 1024 [-1] 0]).messages_received = 1) ∧
    ((clientRun 1024 initCStats
        [ClientOracle.mk 1024 [1024] 10,
          ClientOracle.mk 1024 [-1] 0]).total_latency_us = 10) ∧
    ((summary [clientRun 1024 initCStats
        [ClientOracle.mk 1024 [1024] 10,
          ClientOracle.mk 1024 [-1] 0]] 1).2 = 5) ∧
    (10 : ℚ) / ((1 : Nat) : ℚ) = 10 ∧
    (5 : ℚ) ≠ 10 := by
  refine ⟨by decide, by decide, ?_, ?_, by norm_num, by decide⟩
  · show (0 : ℚ) + 10 = 10
    norm_num
  · show ((0 : ℚ) + 10 + 0) / (((2 : Nat) : ℚ)) = 5
    norm_num

/-- C8 (amended): the summary computes throughput_Gbps =
    (total bytes sent + total bytes received) × 8 / (duration × 1e9),
    which for M exchanges of S bytes in each direction equals
    M × S × 2 × 8 / (duration × 1e9); the printed average latency is
    total accumulated latency divided by total messages SENT, which
    equals total_latency_us / M per completed round-trip exactly when
    every sent message's echo was fully received
    (messages_sent = messages_received = M). -/
theorem C8_summary_formulas (M S d : Nat) (st : CStats)
    (hsent : st.bytes_sent = M * S) (hrecv : st.bytes_received = M * S)
    (hmsg : st.messages_sent = M) :
    (summary [st] d).1
      = (((M : Nat) : ℚ) * ((S : Nat) : ℚ) * 2 * 8)
          / (((d : Nat) : ℚ) * 1000000000) ∧
    (summary [st] d).2 = st.total_latency_us / ((M : Nat) : ℚ) := by
  unfold summary throughput_gbps avg_latency_us
  simp only [List.map_cons, List.map_nil, List.sum_cons, List.sum_nil,
    add_zero]
  rw [hsent, hrecv, hmsg]
  constructor
  · congr 1
    push_cast
    ring
  · rfl

/-- C8, witness: the amended formulas at the spec's literal case
    M = 100, S = 1024, duration = 1 s. -/
theorem C8_summary_formulas_witness :
    (summary [CStats.mk 102400 102400 100 100 12345] 1).1
      = (((100 : Nat) : ℚ) * ((1024 : Nat) : ℚ) * 2 * 8)
          / (((1 : Nat) : ℚ) * 1000000000) ∧
    (summary [CStats.mk 102400 102400 100 100 12345] 1).2
      = (CStats.mk 102400 102400 100 100 12345).total_latency_us
          / ((100 : Nat) : ℚ) :=
  C8_summary_formulas 100 1024 1 (CStats.mk 102400 102400 100 100 12345)
    (by decide) (by decide) (by decide)

end MT25091
